import Mathlib

/-!
Verification of the grapple-config configuration persistence core.

The development shallowly embeds src/lib.rs:
* the byte-addressable EEPROM device (an external collaborator reached over
  I2C) is modelled as a total byte map together with sequential block
  write/read operations, with the bus assumed to acknowledge every transfer
  (bus faults and the settling delay carry no state and are not modelled);
* the deku codec boundary (DekuContainerWrite / DekuContainerRead) is an
  abstract pair of serialize / deserialize functions;
* machine integers are Nat with explicit truncation: the Rust cast
  `bytes.len() as u16` becomes `% 65536`, and `u16::to_le_bytes` /
  `u16::from_le_bytes` are spelled out on Nat;
* `&mut self` methods become explicit state passing, returning the state
  after the call next to the `Result`.
-/

namespace GrappleConfig

/-- Byte-addressable storage image of the EEPROM device: the byte stored at
each address. -/
def Storage : Type := Nat → Nat

/-- Store a single byte at an address. -/
def storeByte (s : Storage) (addr : Nat) (b : Nat) : Storage :=
  fun a => if a = addr then b else s a

/-- Store a block of bytes sequentially starting at an address; models
`M24C64::write(addr, bytes, delay)` of the eeprom driver with an
acknowledging bus. -/
def storeBytes : Storage → Nat → List Nat → Storage
  | s, _, [] => s
  | s, addr, b :: bs => storeBytes (storeByte s addr b) (addr + 1) bs

/-- Read a block of bytes sequentially starting at an address; models
`M24C64::read(addr, buf)` filling a buffer of the given length. -/
def readBytes (s : Storage) (addr : Nat) : Nat → List Nat
  | 0 => []
  | n + 1 => s addr :: readBytes s (addr + 1) n

/-- Pointwise characterisation of `storeBytes`. -/
theorem storeBytes_apply (bs : List Nat) (s : Storage) (addr x : Nat) :
    storeBytes s addr bs x =
      if addr ≤ x ∧ x < addr + bs.length then bs.getD (x - addr) 0 else s x := by
  induction bs generalizing s addr with
  | nil =>
      simp only [storeBytes, List.length_nil, Nat.add_zero]
      rw [if_neg (by omega)]
  | cons b bs ih =>
      simp only [storeBytes, List.length_cons]
      rw [ih]
      by_cases h1 : addr + 1 ≤ x ∧ x < addr + 1 + bs.length
      · rw [if_pos h1, if_pos (by omega)]
        have hx : x - addr = (x - (addr + 1)) + 1 := by omega
        rw [hx, List.getD_cons_succ]
      · rw [if_neg h1]
        simp only [storeByte]
        by_cases h2 : x = addr
        · subst h2
          rw [if_pos rfl, if_pos (by omega)]
          simp
        · rw [if_neg h2, if_neg (by omega)]

/-- Reading a region only depends on the bytes of that region. -/
theorem readBytes_congr (s t : Storage) (addr n : Nat)
    (h : ∀ x, addr ≤ x → x < addr + n → s x = t x) :
    readBytes s addr n = readBytes t addr n := by
  induction n generalizing addr with
  | zero => rfl
  | succ n ih =>
      simp only [readBytes]
      rw [h addr (Nat.le_refl addr) (by omega),
        ih (addr + 1) (fun x hx1 hx2 => h x (by omega) (by omega))]

/-- Reading back exactly the block just stored recovers it. -/
theorem readBytes_storeBytes_self (bs : List Nat) (s : Storage) (addr : Nat) :
    readBytes (storeBytes s addr bs) addr bs.length = bs := by
  induction bs generalizing s addr with
  | nil => rfl
  | cons b bs ih =>
      simp only [storeBytes, List.length_cons, readBytes]
      have hhead : (storeBytes (storeByte s addr b) (addr + 1) bs) addr = b := by
        rw [storeBytes_apply, if_neg (by omega)]
        simp [storeByte]
      rw [hhead, ih]

/-- Reading a region disjoint from a stored block ignores the store. -/
theorem readBytes_storeBytes_disjoint (s : Storage) (addr addr2 n : Nat)
    (bs : List Nat) (h : addr2 + n ≤ addr ∨ addr + bs.length ≤ addr2) :
    readBytes (storeBytes s addr bs) addr2 n = readBytes s addr2 n := by
  apply readBytes_congr
  intro x hx1 hx2
  rw [storeBytes_apply, if_neg (by omega)]

/-- Reading a region splits at any midpoint. -/
theorem readBytes_add (s : Storage) (addr m n : Nat) :
    readBytes s addr (m + n) = readBytes s addr m ++ readBytes s (addr + m) n := by
  induction m generalizing addr with
  | zero => simp [readBytes]
  | succ m ih =>
      have h1 : m + 1 + n = (m + n) + 1 := by omega
      have h2 : addr + (m + 1) = addr + 1 + m := by omega
      rw [h1, h2]
      simp only [readBytes]
      rw [ih (addr + 1), List.cons_append]

/-- Reading from constant storage yields a constant list. -/
theorem readBytes_const (b addr n : Nat) :
    readBytes (fun _ => b) addr n = List.replicate n b := by
  induction n generalizing addr with
  | zero => rfl
  | succ n ih =>
      simp only [readBytes, List.replicate_succ]
      rw [ih]

/-- Little-endian byte pair of a value already truncated to u16; models
`u16::to_le_bytes`. -/
def u16_to_le_bytes (n : Nat) : List Nat := [n % 256, n / 256 % 256]

/-- Value of a little-endian byte pair; models `u16::from_le_bytes` on the
two-byte length buffer. -/
def u16_from_le_bytes (bs : List Nat) : Nat := bs.getD 0 0 + 256 * bs.getD 1 0

/-- Codec boundary for the opaque Config type: the deku
DekuContainerWrite / DekuContainerRead pair. `to_bytes` serializes a value;
`from_bytes` deserializes a buffer, returning the unconsumed rest next to the
value, as `Config::from_bytes((&buf, 0))` does. `D` is the (abstract)
DekuError type. -/
structure Codec (Config D : Type) where
  to_bytes : Config → Except D (List Nat)
  from_bytes : List Nat → Except D (List Nat × Config)

/-- Error type of the durable backend, `M24C64ConfigurationError<E>`: a deku
serialisation failure, an I2C bus failure, or blank (never written) storage. -/
inductive M24C64ConfigurationError (D E : Type) where
  | Deku : D → M24C64ConfigurationError D E
  | I2C : E → M24C64ConfigurationError D E
  | BlankEeprom : M24C64ConfigurationError D E

/-- State of the durable backend `M24C64ConfigurationMarshal`: the fixed base
address offset and the device storage it owns. The delay primitive is pure
timing and carries no state. -/
structure M24C64ConfigurationMarshal where
  address_offset : Nat
  storage : Storage

/-- Durable write, from `M24C64ConfigurationMarshal::write`: serialize via the
codec (a failure is surfaced as a Deku error with no storage touched), store
the length truncated to u16 as two little-endian bytes at the offset, then
store the payload at offset + 2. Returns the marshal state after the call and
the result. -/
def M24C64ConfigurationMarshal.write (E : Type) {Config D : Type}
    (codec : Codec Config D) (m : M24C64ConfigurationMarshal) (config : Config) :
    M24C64ConfigurationMarshal × Except (M24C64ConfigurationError D E) Unit :=
  match codec.to_bytes config with
  | Except.error e => (m, Except.error (M24C64ConfigurationError.Deku e))
  | Except.ok bytes =>
      ({ m with storage :=
          (storeBytes
            (storeBytes m.storage m.address_offset
              (u16_to_le_bytes (bytes.length % 65536)))
            (m.address_offset + 2) bytes) },
       Except.ok ())

/-- Durable read, from `M24C64ConfigurationMarshal::read`: read the two length
bytes at the offset; if both equal 255 report BlankEeprom; otherwise read that
many payload bytes at offset + 2 and deserialize them via the codec,
discarding the unconsumed rest. -/
def M24C64ConfigurationMarshal.read (E : Type) {Config D : Type}
    (codec : Codec Config D) (m : M24C64ConfigurationMarshal) :
    M24C64ConfigurationMarshal × Except (M24C64ConfigurationError D E) Config :=
  if (readBytes m.storage m.address_offset 2).getD 0 0 = 255 ∧
      (readBytes m.storage m.address_offset 2).getD 1 0 = 255 then
    (m, Except.error M24C64ConfigurationError.BlankEeprom)
  else
    match codec.from_bytes
        (readBytes m.storage (m.address_offset + 2)
          (u16_from_le_bytes (readBytes m.storage m.address_offset 2))) with
    | Except.ok (_, c) => (m, Except.ok c)
    | Except.error e => (m, Except.error (M24C64ConfigurationError.Deku e))

/-- The storage backend contract, trait `ConfigurationMarshal<Config>`: a
backend is a state type `S` with write and read operations that may fail with
`Err`, each returning the state after the call next to the result. -/
structure ConfigurationMarshal (Config S Err : Type) where
  write : S → Config → S × Except Err Unit
  read : S → S × Except Err Config

/-- The durable backend packaged as an instance of the contract. -/
def m24c64Marshal (E : Type) {Config D : Type} (codec : Codec Config D) :
    ConfigurationMarshal Config M24C64ConfigurationMarshal
      (M24C64ConfigurationError D E) where
  write := fun m c => M24C64ConfigurationMarshal.write E codec m c
  read := fun m => M24C64ConfigurationMarshal.read E codec m

/-- The uninhabited error type `core::convert::Infallible`. -/
inductive Infallible : Type

/-- State of `VolatileMarshal`: a unit struct, no fields. -/
def VolatileMarshal : Type := Unit

/-- The volatile backend as an instance of the contract: write succeeds with
no effect, read succeeds with `Config::default()` (passed in as `default`),
and the error type is `Infallible`. -/
def volatileMarshal {Config : Type} (default : Config) :
    ConfigurationMarshal Config VolatileMarshal Infallible where
  write := fun m _ => (m, Except.ok ())
  read := fun m => (m, Except.ok default)

/-- State of `ConfigurationProvider<Config, Marshal>`: the live (volatile)
value, the snapshot of the last applied value, and the owned marshal state. -/
structure ConfigurationProvider (Config S : Type) where
  volatile : Config
  last_applied : Option Config
  marshal : S

/-- Provider construction, `ConfigurationProvider::new`: try reading the
marshal; on success adopt the value; on failure write `Config::default()`
(passed in as `default`), propagating a write failure, and adopt the
default. -/
def ConfigurationProvider.new {Config S Err : Type}
    (M : ConfigurationMarshal Config S Err) (default : Config) (marshal : S) :
    Except Err (ConfigurationProvider Config S) :=
  match M.read marshal with
  | (m1, Except.ok c) =>
      Except.ok { volatile := c, last_applied := none, marshal := m1 }
  | (m1, Except.error _) =>
      match M.write m1 default with
      | (_, Except.error e) => Except.error e
      | (m2, Except.ok _) =>
          Except.ok { volatile := default, last_applied := none, marshal := m2 }

/-- Commit, `ConfigurationProvider::commit`: forward the live value to the
marshal write. -/
def ConfigurationProvider.commit {Config S Err : Type}
    (M : ConfigurationMarshal Config S Err) (p : ConfigurationProvider Config S) :
    ConfigurationProvider Config S × Except Err Unit :=
  ({ p with marshal := (M.write p.marshal p.volatile).1 },
   (M.write p.marshal p.volatile).2)

/-- Borrowing accessor `ConfigurationProvider::current`. -/
def ConfigurationProvider.current {Config S : Type}
    (p : ConfigurationProvider Config S) : Config :=
  p.volatile

/-- Mutation through `ConfigurationProvider::current_mut`: the caller
overwrites the live value in place. -/
def ConfigurationProvider.current_mut {Config S : Type}
    (p : ConfigurationProvider Config S) (c : Config) :
    ConfigurationProvider Config S :=
  { p with volatile := c }

/-- Accessor `ConfigurationProvider::applied`. -/
def ConfigurationProvider.applied {Config S : Type}
    (p : ConfigurationProvider Config S) : Option Config :=
  p.last_applied

/-- Snapshot operation `ConfigurationProvider::apply`: record a clone of the
live value as the last applied value. -/
def ConfigurationProvider.apply {Config S : Type}
    (p : ConfigurationProvider Config S) : ConfigurationProvider Config S :=
  { p with last_applied := some p.volatile }

/-- Characterisation of a durable write whose serialisation succeeds: the
length bytes go to the offset, the payload to offset + 2, and the call
reports success. -/
theorem write_eq_of_to_bytes_ok (E : Type) {Config D : Type}
    (codec : Codec Config D) (m : M24C64ConfigurationMarshal) (c : Config)
    (bytes : List Nat) (h : codec.to_bytes c = Except.ok bytes) :
    M24C64ConfigurationMarshal.write E codec m c =
      ({ address_offset := m.address_offset,
         storage :=
           (storeBytes
             (storeBytes m.storage m.address_offset
               (u16_to_le_bytes (bytes.length % 65536)))
             (m.address_offset + 2) bytes) },
       Except.ok ()) := by
  simp only [M24C64ConfigurationMarshal.write, h]

/-- After storing the length bytes and then the payload, reading the two
bytes at the offset returns the length bytes: the payload store is disjoint
from the length field. -/
theorem lenfield_after_store (s : Storage) (off v : Nat) (bytes : List Nat) :
    readBytes
      (storeBytes (storeBytes s off (u16_to_le_bytes v)) (off + 2) bytes)
      off 2 = u16_to_le_bytes v := by
  rw [readBytes_storeBytes_disjoint _ _ _ _ _ (Or.inl (by omega))]
  exact readBytes_storeBytes_self (u16_to_le_bytes v) s off

/-- Characterisation of a durable read over a well-formed frame: if the
length field holds the payload length (at most 65534), the payload bytes are
in place and they deserialize, the read succeeds with the decoded value. -/
theorem read_ok_of_frame (E : Type) {Config D : Type}
    (codec : Codec Config D) (m : M24C64ConfigurationMarshal)
    (bytes rest : List Nat) (c : Config)
    (hlb : readBytes m.storage m.address_offset 2 = u16_to_le_bytes bytes.length)
    (hfit : bytes.length ≤ 65534)
    (hbuf : readBytes m.storage (m.address_offset + 2) bytes.length = bytes)
    (hdes : codec.from_bytes bytes = Except.ok (rest, c)) :
    M24C64ConfigurationMarshal.read E codec m = (m, Except.ok c) := by
  have h0 : (readBytes m.storage m.address_offset 2).getD 0 0 =
      bytes.length % 256 := by rw [hlb]; rfl
  have h1 : (readBytes m.storage m.address_offset 2).getD 1 0 =
      bytes.length / 256 % 256 := by rw [hlb]; rfl
  have hfrom : u16_from_le_bytes (readBytes m.storage m.address_offset 2) =
      bytes.length := by
    rw [hlb]
    simp only [u16_from_le_bytes, u16_to_le_bytes, List.getD_cons_zero,
      List.getD_cons_succ]
    omega
  simp only [M24C64ConfigurationMarshal.read, h0, h1]
  rw [if_neg (by omega), hfrom, hbuf, hdes]

/-- Helper: a serialized payload of at most 65534 bytes round-trips through
the durable backend. -/
theorem write_read_roundtrip_of_fits {Config D : Type} (E : Type)
    (codec : Codec Config D) (m : M24C64ConfigurationMarshal) (c : Config)
    (bytes rest : List Nat)
    (hser : codec.to_bytes c = Except.ok bytes)
    (hfit : bytes.length ≤ 65534)
    (hdes : codec.from_bytes bytes = Except.ok (rest, c)) :
    (M24C64ConfigurationMarshal.write E codec m c).2 = Except.ok () ∧
    (M24C64ConfigurationMarshal.read E codec
      (M24C64ConfigurationMarshal.write E codec m c).1).2 = Except.ok c := by
  have hw := write_eq_of_to_bytes_ok E codec m c bytes hser
  rw [Nat.mod_eq_of_lt (by omega : bytes.length < 65536)] at hw
  refine ⟨by rw [hw], ?_⟩
  rw [hw]
  dsimp only
  rw [read_ok_of_frame E codec _ bytes rest c
    (lenfield_after_store m.storage m.address_offset bytes.length bytes)
    hfit (readBytes_storeBytes_self bytes _ (m.address_offset + 2)) hdes]

/-- Helper: a storage region whose two length-field bytes are both 255 makes
the durable read report BlankEeprom, for every codec and whatever the rest
of the storage holds. -/
theorem read_blank_of_ff {Config D : Type} (E : Type) (codec : Codec Config D)
    (m : M24C64ConfigurationMarshal)
    (h0 : m.storage m.address_offset = 255)
    (h1 : m.storage (m.address_offset + 1) = 255) :
    M24C64ConfigurationMarshal.read E codec m =
      (m, Except.error M24C64ConfigurationError.BlankEeprom) := by
  have hrb : readBytes m.storage m.address_offset 2 =
      [m.storage m.address_offset, m.storage (m.address_offset + 1)] := rfl
  simp only [M24C64ConfigurationMarshal.read, hrb, h0, h1,
    List.getD_cons_zero, List.getD_cons_succ]
  rw [if_pos ⟨trivial, trivial⟩]

/-- Claim C1: for every Config whose serialization succeeds with a payload
that fits the frame (at most 65534 bytes) and deserializes back to the same
value under the codec, a durable write followed by a durable read over the
resulting storage returns that value. -/
theorem m24c64_write_read_roundtrip {Config D : Type} (E : Type)
    (codec : Codec Config D) (m : M24C64ConfigurationMarshal) (c : Config)
    (bytes rest : List Nat)
    (hser : codec.to_bytes c = Except.ok bytes)
    (hfit : bytes.length ≤ 65534)
    (hdes : codec.from_bytes bytes = Except.ok (rest, c)) :
    (M24C64ConfigurationMarshal.write E codec m c).2 = Except.ok () ∧
    (M24C64ConfigurationMarshal.read E codec
      (M24C64ConfigurationMarshal.write E codec m c).1).2 = Except.ok c :=
  write_read_roundtrip_of_fits E codec m c bytes rest hser hfit hdes

/-- Toy codec on Nat used to instantiate theorems with hypotheses: a value
serializes to its low byte, and a one-byte buffer deserializes to that
byte. -/
def natCodec : Codec Nat Unit where
  to_bytes := fun n => Except.ok [n % 256]
  from_bytes := fun l =>
    match l with
    | [b] => Except.ok ([], b)
    | _ => Except.error ()

/-- Witness for claim C1 at a concrete input: the value 7 round-trips
through a blank device under the toy codec. -/
theorem m24c64_write_read_roundtrip_witness :
    (M24C64ConfigurationMarshal.write Unit natCodec ⟨0, fun _ => 255⟩ 7).2 =
      Except.ok () ∧
    (M24C64ConfigurationMarshal.read Unit natCodec
      (M24C64ConfigurationMarshal.write Unit natCodec ⟨0, fun _ => 255⟩ 7).1).2 =
      Except.ok 7 :=
  m24c64_write_read_roundtrip Unit natCodec ⟨0, fun _ => 255⟩ 7 [7] []
    (by simp [natCodec]) (by simp) rfl

/-- Claim C2: whenever both length-field bytes at the base offset hold the
erase value 255, the durable read returns BlankEeprom. The statement holds
for every codec and every storage with those two bytes, so the result never
depends on payload bytes or on deserialization, and in particular is never a
serialisation error. -/
theorem read_blank_eeprom {Config D : Type} (E : Type) (codec : Codec Config D)
    (m : M24C64ConfigurationMarshal)
    (h0 : m.storage m.address_offset = 255)
    (h1 : m.storage (m.address_offset + 1) = 255) :
    M24C64ConfigurationMarshal.read E codec m =
      (m, Except.error M24C64ConfigurationError.BlankEeprom) :=
  read_blank_of_ff E codec m h0 h1

/-- Witness for claim C2 at a concrete input: a device image entirely filled
with 255 reads back as BlankEeprom. -/
theorem read_blank_eeprom_witness :
    M24C64ConfigurationMarshal.read Unit natCodec ⟨3, fun _ => 255⟩ =
      (⟨3, fun _ => 255⟩, Except.error M24C64ConfigurationError.BlankEeprom) :=
  read_blank_eeprom Unit natCodec ⟨3, fun _ => 255⟩ rfl rfl

/-- Claim C7: when serialization of the Config fails, the durable write
returns the Deku error and the marshal state, storage included, is exactly
the input state: no device write happens. -/
theorem write_serialisation_error {Config D : Type} (E : Type)
    (codec : Codec Config D) (m : M24C64ConfigurationMarshal) (c : Config)
    (e : D) (h : codec.to_bytes c = Except.error e) :
    M24C64ConfigurationMarshal.write E codec m c =
      (m, Except.error (M24C64ConfigurationError.Deku e)) := by
  simp only [M24C64ConfigurationMarshal.write, h]

/-- Toy codec on Nat whose serialization always fails. -/
def failCodec : Codec Nat Unit where
  to_bytes := fun _ => Except.error ()
  from_bytes := fun _ => Except.error ()

/-- Witness for claim C7 at a concrete input: under the failing codec a
write returns the Deku error and leaves the marshal untouched. -/
theorem write_serialisation_error_witness :
    M24C64ConfigurationMarshal.write Unit failCodec ⟨0, fun _ => 0⟩ 5 =
      (⟨0, fun _ => 0⟩, Except.error (M24C64ConfigurationError.Deku ())) :=
  write_serialisation_error Unit failCodec ⟨0, fun _ => 0⟩ 5 () rfl

/-- Claim C9: the durable write stores the payload length reduced mod 2^16
as the little-endian length field, with no error and no rejection: the
length bytes are [n % 256, n / 256 % 256]; a 65535-byte payload stores the
blank sentinel [255, 255] and a 65536-byte payload stores [0, 0]. -/
theorem write_length_truncation {Config D : Type} (E : Type)
    (codec : Codec Config D) (m : M24C64ConfigurationMarshal) (c : Config)
    (bytes : List Nat) (h : codec.to_bytes c = Except.ok bytes) :
    (M24C64ConfigurationMarshal.write E codec m c).2 = Except.ok () ∧
    readBytes (M24C64ConfigurationMarshal.write E codec m c).1.storage
        m.address_offset 2 =
      [bytes.length % 256, bytes.length / 256 % 256] ∧
    (bytes.length = 65535 →
      readBytes (M24C64ConfigurationMarshal.write E codec m c).1.storage
        m.address_offset 2 = [255, 255]) ∧
    (bytes.length = 65536 →
      readBytes (M24C64ConfigurationMarshal.write E codec m c).1.storage
        m.address_offset 2 = [0, 0]) := by
  have hw := write_eq_of_to_bytes_ok E codec m c bytes h
  rw [hw]
  dsimp only
  rw [lenfield_after_store m.storage m.address_offset (bytes.length % 65536) bytes]
  have e1 : bytes.length % 65536 % 256 = bytes.length % 256 := by omega
  have e2 : bytes.length % 65536 / 256 % 256 = bytes.length / 256 % 256 := by
    omega
  simp only [u16_to_le_bytes, e1, e2]
  refine ⟨trivial, trivial, ?_, ?_⟩
  · intro hl
    rw [hl]
  · intro hl
    rw [hl]

/-- Toy codec on Unit whose serialization produces a payload of exactly
65535 bytes, the length that truncates to the blank sentinel. -/
def bigCodec : Codec Unit Unit where
  to_bytes := fun _ => Except.ok (List.replicate 65535 0)
  from_bytes := fun _ => Except.error ()

/-- Witness for claim C9 at a concrete input: a 65535-byte payload is
written without error and its stored length field is the blank sentinel. -/
theorem write_length_truncation_witness :
    (M24C64ConfigurationMarshal.write Unit bigCodec ⟨0, fun _ => 255⟩ ()).2 =
      Except.ok () ∧
    readBytes
      (M24C64ConfigurationMarshal.write Unit bigCodec
        ⟨0, fun _ => 255⟩ ()).1.storage 0 2 = [255, 255] :=
  ⟨(write_length_truncation Unit bigCodec ⟨0, fun _ => 255⟩ ()
      (List.replicate 65535 0) rfl).1,
   (write_length_truncation Unit bigCodec ⟨0, fun _ => 255⟩ ()
      (List.replicate 65535 0) rfl).2.2.1 (List.length_replicate 65535 0)⟩

/-- Helper: after storing the sentinel pair 255, 255 at the offset followed
by any payload at offset + 2, the first length byte is 255. -/
theorem sentinel_store_fst (s : Storage) (off : Nat) (bs : List Nat) :
    storeBytes (storeBytes s off [255, 255]) (off + 2) bs off = 255 := by
  rw [storeBytes_apply, if_neg (by omega), storeBytes_apply,
    if_pos (by simp only [List.length_cons, List.length_nil]; omega)]
  simp

/-- Helper: after storing the sentinel pair 255, 255 at the offset followed
by any payload at offset + 2, the second length byte is 255. -/
theorem sentinel_store_snd (s : Storage) (off : Nat) (bs : List Nat) :
    storeBytes (storeBytes s off [255, 255]) (off + 2) bs (off + 1) = 255 := by
  rw [storeBytes_apply, if_neg (by omega), storeBytes_apply,
    if_pos (by simp only [List.length_cons, List.length_nil]; omega)]
  simp

/-- Counterexample for claim C3 as stated: under a codec whose payload is
exactly 65535 bytes, the durable write does not reject the operation: it
returns success, performs the storage write, and stores the blank sentinel
255, 255 as the length field. -/
theorem write_at_65535_not_rejected :
    (M24C64ConfigurationMarshal.write Unit bigCodec ⟨4, fun _ => 0⟩ ()).2 =
      Except.ok () ∧
    readBytes
      (M24C64ConfigurationMarshal.write Unit bigCodec
        ⟨4, fun _ => 0⟩ ()).1.storage 4 2 = [255, 255] := by
  have hw := write_eq_of_to_bytes_ok Unit bigCodec ⟨4, fun _ => 0⟩ ()
    (List.replicate 65535 0) rfl
  rw [hw]
  dsimp only
  refine ⟨rfl, ?_⟩
  rw [lenfield_after_store, List.length_replicate]
  rfl

/-- Claim C3 (amended): a payload of exactly 65534 bytes round-trips; a
Config whose serialized payload is 65535 bytes long is not rejected: the
write succeeds and stores the blank sentinel 255, 255 as its length field,
so the subsequent durable read reports BlankEeprom instead of the written
value. -/
theorem m24c64_length_boundary {Config D : Type} (E : Type)
    (codec : Codec Config D) (m : M24C64ConfigurationMarshal) (c : Config)
    (bytes : List Nat) (hser : codec.to_bytes c = Except.ok bytes) :
    (bytes.length = 65534 →
      ∀ rest, codec.from_bytes bytes = Except.ok (rest, c) →
        (M24C64ConfigurationMarshal.write E codec m c).2 = Except.ok () ∧
        (M24C64ConfigurationMarshal.read E codec
          (M24C64ConfigurationMarshal.write E codec m c).1).2 = Except.ok c) ∧
    (bytes.length = 65535 →
      (M24C64ConfigurationMarshal.write E codec m c).2 = Except.ok () ∧
      readBytes (M24C64ConfigurationMarshal.write E codec m c).1.storage
        m.address_offset 2 = [255, 255] ∧
      (M24C64ConfigurationMarshal.read E codec
        (M24C64ConfigurationMarshal.write E codec m c).1).2 =
        Except.error M24C64ConfigurationError.BlankEeprom) := by
  constructor
  · intro hlen rest hdes
    exact write_read_roundtrip_of_fits E codec m c bytes rest hser
      (by omega) hdes
  · intro hlen
    have hw := write_eq_of_to_bytes_ok E codec m c bytes hser
    have hsent : u16_to_le_bytes (bytes.length % 65536) = [255, 255] := by
      rw [hlen]
      rfl
    rw [hw, hsent]
    dsimp only
    refine ⟨rfl, ?_, ?_⟩
    · rw [readBytes_storeBytes_disjoint _ _ _ _ _ (Or.inl (by omega))]
      exact readBytes_storeBytes_self [255, 255] m.storage m.address_offset
    · exact congrArg Prod.snd (read_blank_of_ff E codec _
        (sentinel_store_fst m.storage m.address_offset bytes)
        (sentinel_store_snd m.storage m.address_offset bytes))

/-- Toy codec on Unit whose payload is exactly 65534 bytes and whose
deserializer accepts any buffer. -/
def midCodec : Codec Unit Unit where
  to_bytes := fun _ => Except.ok (List.replicate 65534 3)
  from_bytes := fun _ => Except.ok ([], ())

/-- Witness for the amended claim C3 at a concrete input: a 65534-byte
payload is written and read back successfully. -/
theorem m24c64_length_boundary_witness :
    (M24C64ConfigurationMarshal.write Unit midCodec ⟨0, fun _ => 255⟩ ()).2 =
      Except.ok () ∧
    (M24C64ConfigurationMarshal.read Unit midCodec
      (M24C64ConfigurationMarshal.write Unit midCodec
        ⟨0, fun _ => 255⟩ ()).1).2 = Except.ok () :=
  (m24c64_length_boundary Unit midCodec ⟨0, fun _ => 255⟩ ()
      (List.replicate 65534 3) rfl).1
    (List.length_replicate 65534 3) [] rfl

/-- Claim C8: the volatile backend always succeeds: write changes nothing
and returns success, read returns the default value, and the error type
Infallible is uninhabited, so no call on this backend can return an
error. -/
theorem volatileMarshal_spec {Config : Type} (default c : Config)
    (m : VolatileMarshal) :
    (volatileMarshal default).write m c = (m, Except.ok ()) ∧
    (volatileMarshal default).read m = (m, Except.ok default) ∧
    IsEmpty Infallible :=
  ⟨rfl, rfl, ⟨fun e => nomatch e⟩⟩

/-- Claim C4: provider construction over any backend. A successful backend
read yields a ready provider holding the read value over the post-read
marshal state, with no applied snapshot. A failed read makes the provider
write the default: if that write fails, construction fails with the write
error and produces no provider; if it succeeds, the provider is ready with
the default over the post-write marshal state. -/
theorem provider_new_spec {Config S Err : Type}
    (M : ConfigurationMarshal Config S Err) (d : Config) (m0 : S) :
    (∀ m1 c, M.read m0 = (m1, Except.ok c) →
      ∃ p : ConfigurationProvider Config S,
        ConfigurationProvider.new M d m0 = Except.ok p ∧
        p.current = c ∧ p.applied = none ∧ p.marshal = m1) ∧
    (∀ m1 e, M.read m0 = (m1, Except.error e) →
      (∀ m2 e2, M.write m1 d = (m2, Except.error e2) →
        ConfigurationProvider.new M d m0 = Except.error e2) ∧
      (∀ m2, M.write m1 d = (m2, Except.ok ()) →
        ∃ p : ConfigurationProvider Config S,
          ConfigurationProvider.new M d m0 = Except.ok p ∧
          p.current = d ∧ p.applied = none ∧ p.marshal = m2)) := by
  constructor
  · intro m1 c h
    refine ⟨{ volatile := c, last_applied := none, marshal := m1 },
      ?_, rfl, rfl, rfl⟩
    simp only [ConfigurationProvider.new, h]
  · intro m1 e h
    constructor
    · intro m2 e2 hw
      simp only [ConfigurationProvider.new, h, hw]
    · intro m2 hw
      refine ⟨{ volatile := d, last_applied := none, marshal := m2 },
        ?_, rfl, rfl, rfl⟩
      simp only [ConfigurationProvider.new, h, hw]

/-- Toy backend on Bool with Nat marshal state whose read always fails and
whose write always succeeds, stepping the state observably. -/
def toyFailReadMarshal : ConfigurationMarshal Bool Nat Unit where
  write := fun m _ => (m + 10, Except.ok ())
  read := fun m => (m + 1, Except.error ())

/-- Witness for claim C4 at a concrete input: over a backend whose read
fails and whose write succeeds, construction yields a ready provider
holding the default over the post-write marshal state. -/
theorem provider_new_spec_witness :
    ∃ p : ConfigurationProvider Bool Nat,
      ConfigurationProvider.new toyFailReadMarshal true 0 = Except.ok p ∧
      p.current = true ∧ p.applied = none ∧ p.marshal = 11 :=
  ((provider_new_spec toyFailReadMarshal true 0).2 1 () rfl).2 11 rfl

/-- Claim C10: the applied snapshot is none immediately after a successful
construction on every path; apply replaces the applied snapshot with the
current live value and changes neither the live value nor the marshal;
commit and mutation through current_mut leave the applied snapshot
unchanged. -/
theorem provider_applied_frame {Config S Err : Type}
    (M : ConfigurationMarshal Config S Err) (d : Config) (m0 : S)
    (p : ConfigurationProvider Config S) (c : Config) :
    (∀ q, ConfigurationProvider.new M d m0 = Except.ok q → q.applied = none) ∧
    (p.apply.applied = some p.current ∧ p.apply.current = p.current ∧
      p.apply.marshal = p.marshal) ∧
    (ConfigurationProvider.commit M p).1.applied = p.applied ∧
    (p.current_mut c).applied = p.applied := by
  refine ⟨?_, ⟨rfl, rfl, rfl⟩, rfl, rfl⟩
  intro q hq
  unfold ConfigurationProvider.new at hq
  split at hq
  · injection hq with h
    subst h
    rfl
  · split at hq
    · exact Except.noConfusion hq
    · injection hq with h
      subst h
      rfl

/-- Witness for claim C10 at a concrete input: over the volatile backend the
freshly built provider has no applied snapshot, apply snapshots the live
value without touching it, and commit and mutation keep the snapshot. -/
theorem provider_applied_frame_witness :
    (∀ q, ConfigurationProvider.new (volatileMarshal false) false () =
        Except.ok q → q.applied = none) ∧
    (({ volatile := true, last_applied := none, marshal := () } :
        ConfigurationProvider Bool VolatileMarshal).apply.applied =
      some true ∧
     ({ volatile := true, last_applied := none, marshal := () } :
        ConfigurationProvider Bool VolatileMarshal).apply.current = true ∧
     ({ volatile := true, last_applied := none, marshal := () } :
        ConfigurationProvider Bool VolatileMarshal).apply.marshal = ()) ∧
    (ConfigurationProvider.commit (volatileMarshal false)
        { volatile := true, last_applied := none, marshal := () }).1.applied =
      none ∧
    (({ volatile := true, last_applied := none, marshal := () } :
        ConfigurationProvider Bool VolatileMarshal).current_mut
      false).applied = none :=
  provider_applied_frame (volatileMarshal false) false ()
    { volatile := true, last_applied := none, marshal := () } false

/-- Helper: storing the same two-byte length field and the same payload a
second time leaves the storage image unchanged. -/
theorem storeBytes_frame_idempotent (s : Storage) (off v : Nat)
    (bytes : List Nat) :
    storeBytes
      (storeBytes
        (storeBytes (storeBytes s off (u16_to_le_bytes v)) (off + 2) bytes)
        off (u16_to_le_bytes v))
      (off + 2) bytes =
    storeBytes (storeBytes s off (u16_to_le_bytes v)) (off + 2) bytes := by
  funext x
  simp only [storeBytes_apply, u16_to_le_bytes, List.length_cons,
    List.length_nil]
  split_ifs <;> rfl

/-- Claim C6: for every provider over the durable backend, committing twice
in a row without mutating the live value in between leaves the device
storage after the second commit identical to the storage after the first
commit, both when serialization succeeds and when it fails. -/
theorem commit_idempotent {Config D E : Type} (codec : Codec Config D)
    (p : ConfigurationProvider Config M24C64ConfigurationMarshal) :
    ((ConfigurationProvider.commit (m24c64Marshal E codec)
        (ConfigurationProvider.commit (m24c64Marshal E codec)
          p).1).1).marshal.storage =
      ((ConfigurationProvider.commit (m24c64Marshal E codec)
          p).1).marshal.storage := by
  rcases hser : codec.to_bytes p.volatile with e | bytes
  · simp only [ConfigurationProvider.commit, m24c64Marshal,
      M24C64ConfigurationMarshal.write, hser]
  · simp only [ConfigurationProvider.commit, m24c64Marshal,
      M24C64ConfigurationMarshal.write, hser]
    exact storeBytes_frame_idempotent p.marshal.storage p.marshal.address_offset
      (bytes.length % 65536) bytes

/-- Claim C5: starting from a device image entirely in the erased state 255,
provider construction over the durable backend with a default value whose
payload is 10 bytes succeeds holding that default, and leaves the 64-byte
region at the base offset holding the little-endian length bytes 10, 0,
then the 10 payload bytes, then 52 untouched erase bytes; an independent
durable read over the resulting storage returns the default value. -/
theorem provider_new_blank_scenario {Config D : Type} (E : Type)
    (codec : Codec Config D) (d : Config) (payload rest : List Nat) (off : Nat)
    (hser : codec.to_bytes d = Except.ok payload)
    (hlen : payload.length = 10)
    (hdes : codec.from_bytes payload = Except.ok (rest, d)) :
    ∃ p : ConfigurationProvider Config M24C64ConfigurationMarshal,
      ConfigurationProvider.new (m24c64Marshal E codec) d ⟨off, fun _ => 255⟩ =
        Except.ok p ∧
      p.current = d ∧
      p.marshal.address_offset = off ∧
      readBytes p.marshal.storage off 64 =
        [10, 0] ++ payload ++ List.replicate 52 255 ∧
      (M24C64ConfigurationMarshal.read E codec p.marshal).2 = Except.ok d := by
  have hmod : payload.length % 65536 = payload.length := by
    rw [hlen]
  have hblank :=
    read_blank_of_ff E codec (⟨off, fun _ => 255⟩ : M24C64ConfigurationMarshal)
      rfl rfl
  have hw := write_eq_of_to_bytes_ok E codec ⟨off, fun _ => 255⟩ d payload hser
  rw [hmod] at hw
  dsimp only at hw
  set S2 : Storage :=
    storeBytes
      (storeBytes (fun _ => 255) off (u16_to_le_bytes payload.length))
      (off + 2) payload with hS2
  have hnew : ConfigurationProvider.new (m24c64Marshal E codec) d
      ⟨off, fun _ => 255⟩ =
      Except.ok { volatile := d, last_applied := none, marshal := ⟨off, S2⟩ } := by
    simp only [ConfigurationProvider.new, m24c64Marshal, hblank, hw]
  refine ⟨_, hnew, rfl, rfl, ?_, ?_⟩
  · have h2 : readBytes S2 off 2 = [10, 0] := by
      rw [hS2, lenfield_after_store, hlen]
      rfl
    have h10 : readBytes S2 (off + 2) 10 = payload := by
      rw [hS2, ← hlen]
      exact readBytes_storeBytes_self payload _ (off + 2)
    have h52 : readBytes S2 (off + 2 + 10) 52 = List.replicate 52 255 := by
      rw [hS2,
        readBytes_storeBytes_disjoint _ _ _ _ _ (Or.inr (by omega)),
        readBytes_storeBytes_disjoint _ _ _ _ _
          (Or.inr (by simp only [u16_to_le_bytes, List.length_cons,
            List.length_nil]; omega)),
        readBytes_const]
    have hsplit : (64 : Nat) = 2 + (10 + 52) := by norm_num
    rw [hsplit, readBytes_add, readBytes_add, h2, h10, h52]
    exact (List.append_assoc [10, 0] payload (List.replicate 52 255)).symm
  · dsimp only
    rw [read_ok_of_frame E codec ⟨off, S2⟩ payload rest d
      (by rw [hS2]
          exact lenfield_after_store (fun _ => 255) off payload.length payload)
      (by omega)
      (by rw [hS2]
          exact readBytes_storeBytes_self payload _ (off + 2))
      hdes]

/-- Toy codec on Unit whose payload is exactly 10 bytes and whose
deserializer accepts any buffer. -/
def tenCodec : Codec Unit Unit where
  to_bytes := fun _ => Except.ok (List.replicate 10 7)
  from_bytes := fun _ => Except.ok ([], ())

/-- Witness for claim C5 at a concrete input: over an all-255 device image
and the 10-byte toy codec, construction lays down the expected 64-byte
region and the follow-up read returns the default. -/
theorem provider_new_blank_scenario_witness :
    ∃ p : ConfigurationProvider Unit M24C64ConfigurationMarshal,
      ConfigurationProvider.new (m24c64Marshal Unit tenCodec) ()
          ⟨0, fun _ => 255⟩ = Except.ok p ∧
      p.current = () ∧
      p.marshal.address_offset = 0 ∧
      readBytes p.marshal.storage 0 64 =
        [10, 0] ++ List.replicate 10 7 ++ List.replicate 52 255 ∧
      (M24C64ConfigurationMarshal.read Unit tenCodec p.marshal).2 =
        Except.ok () :=
  provider_new_blank_scenario Unit tenCodec () (List.replicate 10 7) [] 0
    rfl (List.length_replicate 10 7) rfl

end GrappleConfig
